import Mathlib

/-!
Verification of the structural diff engine of pyelfcmp against its
natural-language specification.

The definitions below are a shallow embedding of `src/elfcmp/utils.py`,
`src/elfcmp/structs.py` and `src/elfcmp/elfcmp.py`.  Python byte strings
become `List Nat`, Python (arbitrary-precision) integers become `Int`
(or `Nat` where the source value is a non-negative file offset/size),
Python dictionaries become a finite key set together with a value
function, and fallible code returns `Except`.
-/

namespace Elfcmp

/-- Embedding of `structs.BlockType` (the `NOT_USED` kind is what the
spec calls a `Gap`). -/
inductive BlockType where
  | NOT_USED
  | ELF_HEADER
  | PROGRAM_HEADER_TABLE
  | SECTION_HEADER_TABLE
  | SECTION
  deriving DecidableEq

/-- Embedding of `structs.Block`.  The Python object also carries a
back-reference `elf` to the owning file object and an optional
`object_` reference; those are pure references used only for rendering
and for `data()` (where the owning file's bytes are passed explicitly
to `block_data` below), so they are dropped from the embedding. -/
structure Block where
  start_offset : Nat
  size : Nat
  block_type : BlockType
  deriving DecidableEq

/-- `structs.Block.last_offset`: `start_offset + size - 1` on Python
integers, hence `Int` (it is `-1` for a zero-size block at offset 0). -/
def Block.last_offset (b : Block) : Int :=
  (b.start_offset : Int) + (b.size : Int) - 1

/-- `structs.Block.end_offset`: `start_offset + size`. -/
def Block.end_offset (b : Block) : Nat :=
  b.start_offset + b.size

/-- `structs.Block.data`: `stream.seek(start_offset); stream.read(size)`.
A Python stream read past end-of-file silently returns the (possibly
empty) remaining bytes, which is `take`/`drop` on the stream contents. -/
def block_data (file_bytes : List Nat) (b : Block) : List Nat :=
  (file_bytes.drop b.start_offset).take b.size

/-- Embedding of `elfcmp.ComparableElf._check_overlapped_blocks`: walk
consecutive pairs of the list and record the pair whenever
`cur.last_offset() > next.start_offset`. -/
def check_overlapped_blocks : List Block → List (Block × Block)
  | [] => []
  | [_] => []
  | cur :: next :: rest =>
      (if cur.last_offset > (next.start_offset : Int)
       then [(cur, next)] else [])
      ++ check_overlapped_blocks (next :: rest)

/-- Ordering of blocks used by `result.sort(key=lambda b: b.start_offset)`. -/
def Block.le (a b : Block) : Prop :=
  a.start_offset ≤ b.start_offset

instance : DecidableRel Block.le :=
  fun a b => Nat.decLe a.start_offset b.start_offset

instance : IsTotal Block Block.le :=
  ⟨fun a b => Nat.le_total a.start_offset b.start_offset⟩

instance : IsTrans Block Block.le := ⟨fun _ _ _ h1 h2 => Nat.le_trans h1 h2⟩

/-- Python's `list.sort(key=lambda b: b.start_offset)` is a stable sort
by start offset; `List.insertionSort` with `Block.le` is stable in the
same sense (earlier elements precede later ones among equal keys). -/
def sort_blocks (l : List Block) : List Block :=
  l.insertionSort Block.le

/-- The header fields of a parsed ELF file consumed by
`ComparableElf._get_used_blocks` (via the `self[...]` dictionary-like
interface of `ELFFile`).  All are unsigned fields of the ELF header. -/
structure ElfHeaderMeta where
  e_ehsize : Nat
  e_phoff : Nat
  e_phentsize : Nat
  e_phnum : Nat
  e_shoff : Nat
  e_shentsize : Nat
  e_shnum : Nat
  deriving DecidableEq

/-- The fields of a parsed section record consumed by
`_get_used_blocks`: `sh_offset`, `sh_size`, `sh_type` (a string such as
"SHT_NOBITS" in pyelftools) and the result of `section.is_null()`
(whether the record is the null/placeholder section). -/
structure SectionRec where
  sh_offset : Nat
  sh_size : Nat
  sh_type : String
  null_section : Bool
  deriving DecidableEq

/-- Embedding of `ComparableElf._get_used_blocks`: the three table
blocks (ELF header at 0, program header table, section header table)
are always emitted, a `SECTION` block is emitted for every section
record that is not skipped by the dummy-section test
(`sh_size == 0 or section.is_null() or sh_type in ("SHT_NOBITS", "SHT_NULL")`),
and the list is sorted by start offset. -/
def get_used_blocks (m : ElfHeaderMeta) (sections : List SectionRec) :
    List Block :=
  let tables : List Block :=
    [ Block.mk 0 m.e_ehsize BlockType.ELF_HEADER,
      Block.mk m.e_phoff (m.e_phentsize * m.e_phnum)
        BlockType.PROGRAM_HEADER_TABLE,
      Block.mk m.e_shoff (m.e_shentsize * m.e_shnum)
        BlockType.SECTION_HEADER_TABLE ]
  let section_blocks : List Block :=
    sections.filterMap (fun s =>
      if s.sh_size = 0 || s.null_section
          || s.sh_type = "SHT_NOBITS" || s.sh_type = "SHT_NULL"
      then none
      else some (Block.mk s.sh_offset s.sh_size BlockType.SECTION))
  sort_blocks (tables ++ section_blocks)

/-- Python runtime errors that the embedded code can raise. `indexError`
is what `used_blocks[-1]` raises on an empty list; `internalError`
stands for the explicit invariant-violation error the specification
demands (never raised by the source). -/
inductive PyError where
  | indexError
  | internalError
  deriving DecidableEq

instance {ε α : Type} [DecidableEq ε] [DecidableEq α] :
    DecidableEq (Except ε α) := fun a b =>
  match a, b with
  | Except.ok x, Except.ok y =>
      if h : x = y then isTrue (by rw [h]) else isFalse (by simp [h])
  | Except.error x, Except.error y =>
      if h : x = y then isTrue (by rw [h]) else isFalse (by simp [h])
  | Except.ok _, Except.error _ => isFalse (by simp)
  | Except.error _, Except.ok _ => isFalse (by simp)

/-- The `for i in range(len(used_blocks) - 1)` loop of
`ComparableElf._get_not_used_blocks`: for each consecutive pair, skip
when `cur.end_offset() >= next.start_offset`, otherwise emit a
`NOT_USED` block `[cur.end_offset, next.start_offset)`.  (The guard
`len(used_blocks) > 1` around the loop corresponds to the first two
cases.) -/
def gaps_between : List Block → List Block
  | [] => []
  | [_] => []
  | cur :: next :: rest =>
      (if cur.end_offset ≥ next.start_offset
       then []
       else [Block.mk cur.end_offset (next.start_offset - cur.end_offset)
               BlockType.NOT_USED])
      ++ gaps_between (next :: rest)

/-- Embedding of `ComparableElf._get_not_used_blocks` on an
already-computed used-block list.  After the pairwise loop the source
unconditionally evaluates `used_blocks[-1]`, which on an empty list
raises `IndexError`; on a non-empty list it appends a trailing
`NOT_USED` block when `last.end_offset() < file_size` and sorts the
result by start offset. -/
def get_not_used_blocks (used_blocks : List Block) (file_size : Nat) :
    Except PyError (List Block) :=
  match used_blocks.getLast? with
  | none => Except.error PyError.indexError
  | some last_used_block =>
      let between := gaps_between used_blocks
      let trailing :=
        if last_used_block.end_offset < file_size
        then [Block.mk last_used_block.end_offset
                (file_size - last_used_block.end_offset) BlockType.NOT_USED]
        else []
      Except.ok (sort_blocks (between ++ trailing))

/-- Embedding of `utils.locate_array_diff`.  The Python source scans
indices `0 .. min(len,len)-1` with early return of the first index with
differing bytes, then returns the common length if lengths differ and
`-1` otherwise; the scan is realized by simultaneous structural
recursion on the two lists. -/
def locate_array_diff : List Nat → List Nat → Int
  | x :: xs, y :: ys =>
      if x ≠ y then 0
      else
        let r := locate_array_diff xs ys
        if r = -1 then -1 else r + 1
  | a, b => if a.length ≠ b.length then 0 else -1

/-- A Python dictionary, embedded as its (finite) key set together with
a total value function (only its restriction to `keys` is meaningful). -/
structure Dict (K V : Type) where
  keys : Finset K
  val : K → V

/-- Embedding of `utils.DictDiff`.  `modified` (a Python dictionary) is
embedded as its key set `modified_keys` plus the value pair recorded
for each key. -/
structure DictDiff (K V : Type) where
  left_new : Finset K
  right_new : Finset K
  common_keys : Finset K
  modified_keys : Finset K
  modified_val : K → V × V
  same : Finset K

/-- `utils.DictDiff.has_changes`: `left_new or right_new or modified`
(Python truthiness of the sets/dict, i.e. non-emptiness). -/
def DictDiff.has_changes {K V : Type} [DecidableEq K]
    (d : DictDiff K V) : Bool :=
  decide (d.left_new ≠ ∅) || decide (d.right_new ≠ ∅)
    || decide (d.modified_keys ≠ ∅)

/-- Embedding of `utils.compare_dict`.  `intersect_keys` and the new-key
sets are always computed; a common key lands in `same` only when
`include_same` holds and the values compare equal, and in `modified`
only when `include_modified` holds and the values compare unequal.
The `deep` flag of the source only changes the *value* stored in
`modified[key]` (a nested `DictDiff` instead of the pair, when both
values are mappings, lines 198-209 of utils.py); both branches of that
conditional store the same key, so key membership is independent of
`deep` and the embedding records the value pair. -/
def compare_dict {K V : Type} [DecidableEq K] (d1 d2 : Dict K V)
    (include_modified include_same : Bool)
    (compare_function : V → V → Bool) : DictDiff K V :=
  let intersect_keys := d1.keys ∩ d2.keys
  { left_new := d1.keys \ d2.keys
    right_new := d2.keys \ d1.keys
    common_keys := intersect_keys
    same :=
      if include_same
      then intersect_keys.filter
        (fun k => compare_function (d1.val k) (d2.val k) = true)
      else ∅
    modified_keys :=
      if include_modified
      then intersect_keys.filter
        (fun k => ¬ compare_function (d1.val k) (d2.val k) = true)
      else ∅
    modified_val := fun k => (d1.val k, d2.val k) }

/-- The part of a parsed section record consumed by
`ComparableElf._compare_sections`: the header dictionary (with values
of some type `V`) and the payload bytes returned by `section.data()`. -/
structure Sec (V : Type) where
  header : Dict String V
  data : List Nat

/-- Embedding of `structs.SectionDiff`. -/
structure SectionDiff (V : Type) where
  headers : Option (DictDiff String V)
  data_sizes : Option (Nat × Nat)
  data_diff_offset : Int

/-- `structs.SectionDiff.has_changes`:
`not (headers is None and data_sizes is None and data_diff_offset == -1)`. -/
def SectionDiff.has_changes {V : Type} (d : SectionDiff V) : Bool :=
  d.headers.isSome || d.data_sizes.isSome || decide (d.data_diff_offset ≠ -1)

/-- The per-common-name body of the loop in
`ComparableElf._compare_sections`: compare the two header dictionaries
with `include_same=False` (default value equality), pop `"sh_name"`
from the modified map, compare payload lengths and locate the first
payload byte difference. -/
def compare_one_section {V : Type} [DecidableEq V] (s1 s2 : Sec V) :
    SectionDiff V :=
  let compared_headers0 :=
    compare_dict s1.header s2.header true false (fun a b => decide (a = b))
  let compared_headers :=
    { compared_headers0 with
        modified_keys := compared_headers0.modified_keys.erase "sh_name" }
  let len_1 := s1.data.length
  let len_2 := s2.data.length
  let diff_index := locate_array_diff s1.data s2.data
  { headers :=
      if compared_headers.has_changes then some compared_headers else none
    data_sizes := if len_1 ≠ len_2 then some (len_1, len_2) else none
    data_diff_offset := diff_index }

/-- Embedding of `structs.AllSectionsDiff` (`modified`, a Python
dictionary of `SectionDiff`, embedded as key set plus value function). -/
structure AllSectionsDiff (V : Type) where
  left_new : Finset String
  right_new : Finset String
  modified_keys : Finset String
  modified_val : String → SectionDiff V

/-- Embedding of `ComparableElf._compare_sections` on the two
name-keyed section dictionaries.  The first pass
(`compare_dict(..., include_modified=False, deep=True)`) compares the
`Section` objects themselves with `operator.eq`, which is object
identity for distinct pyelftools `Section` objects and hence false for
sections of two different files — modelled by the constantly-false
comparison function; only `left_new`, `right_new` and `common_keys` of
that pass are consumed. -/
def compare_sections {V : Type} [DecidableEq V]
    (d1 d2 : Dict String (Sec V)) : AllSectionsDiff V :=
  let compared_section_names :=
    compare_dict d1 d2 false true (fun _ _ => false)
  let common_section_names := compared_section_names.common_keys
  { left_new := compared_section_names.left_new
    right_new := compared_section_names.right_new
    modified_keys := common_section_names.filter
      (fun name => (compare_one_section (d1.val name) (d2.val name)).has_changes)
    modified_val := fun name => compare_one_section (d1.val name) (d2.val name) }

/-- Embedding of `structs.NotUsedBlockDiff`. -/
structure NotUsedBlockDiff where
  left_block : Option Block
  right_block : Option Block
  data_sizes : Option (Nat × Nat)
  data_diff_offset : Int
  deriving DecidableEq

/-- `structs.NotUsedBlockDiff.has_changes`:
`data_sizes is not None or data_diff_offset != -1`. -/
def NotUsedBlockDiff.has_changes (d : NotUsedBlockDiff) : Bool :=
  d.data_sizes.isSome || decide (d.data_diff_offset ≠ -1)

/-- Embedding of `structs.AllBlocksDiff`. -/
structure AllBlocksDiff where
  left_overlaps_in_used : List (Block × Block)
  right_overlaps_in_used : List (Block × Block)
  counts_of_not_used : Option (Nat × Nat)
  diffs_in_not_used : List NotUsedBlockDiff
  deriving DecidableEq

/-- The per-file state consumed by `ComparableElf._compare_blocks`:
the stream contents and the memoized `used_blocks` /
`not_used_blocks` lists computed by `read_metadata`. -/
structure ElfModel where
  bytes : List Nat
  used_blocks : List Block
  not_used_blocks : List Block

/-- Embedding of `ComparableElf._compare_blocks`, including CPython's
default-argument semantics for `AllBlocksDiff.__init__`: the default
value `[]` of `diffs_in_not_used` is a single list object created once
at class definition time, so `AllBlocksDiff()` aliases it and
`result.diffs_in_not_used.append(...)` mutates it in place.  The
embedding threads that shared default list explicitly: it is taken as
input and the (possibly extended) list is returned next to the report.
The other fields are rebound (not mutated) by the source, so they do
not leak.  Note the source computes the two overlap reports from
`self.not_used_blocks` and `self.other.not_used_blocks`
(elfcmp.py lines 328-332). -/
def compare_blocks (shared_default : List NotUsedBlockDiff)
    (left right : ElfModel) : AllBlocksDiff × List NotUsedBlockDiff :=
  let counts := (left.not_used_blocks.length, right.not_used_blocks.length)
  let appended : List NotUsedBlockDiff :=
    if counts.1 = counts.2 then
      (left.not_used_blocks.zip right.not_used_blocks).filterMap
        (fun p =>
          let block_diff : NotUsedBlockDiff :=
            { left_block := none
              right_block := none
              data_sizes :=
                if p.1.size ≠ p.2.size then some (p.1.size, p.2.size) else none
              data_diff_offset :=
                locate_array_diff (block_data left.bytes p.1)
                  (block_data right.bytes p.2) }
          if block_diff.has_changes
          then some { block_diff with
                        left_block := some p.1, right_block := some p.2 }
          else none)
    else []
  let shared_after := shared_default ++ appended
  ({ left_overlaps_in_used := check_overlapped_blocks left.not_used_blocks
     right_overlaps_in_used := check_overlapped_blocks right.not_used_blocks
     counts_of_not_used :=
       if counts.1 = counts.2 then none else some counts
     diffs_in_not_used := shared_after },
   shared_after)

/-! Concrete instances used by the theorems below. -/

/-- ELF header metadata whose used blocks are the header `[0,10)`, the
program header table `[5,15)` (one entry of size 10 at offset 5) and a
zero-sized section header table at 15: the first two used blocks
overlap. -/
def overlapping_meta : ElfHeaderMeta :=
  ElfHeaderMeta.mk 10 5 10 1 15 0 0

/-- The per-file state `read_metadata` computes for a 20-byte file with
header `overlapping_meta` and no sections (its single not-used block is
established in the C1 theorem below). -/
def overlapping_file : ElfModel :=
  ElfModel.mk (List.replicate 20 0) (get_used_blocks overlapping_meta [])
    [Block.mk 15 5 BlockType.NOT_USED]

/-- A 2-byte file whose single gap block `[1,2)` holds the byte 1. -/
def leak_left : ElfModel :=
  ElfModel.mk [1, 1] [Block.mk 0 1 BlockType.ELF_HEADER]
    [Block.mk 1 1 BlockType.NOT_USED]

/-- A 2-byte file whose single gap block `[1,2)` holds the byte 2, so
comparing it with `leak_left` yields one not-used-block diff. -/
def leak_right : ElfModel :=
  ElfModel.mk [1, 2] [Block.mk 0 1 BlockType.ELF_HEADER]
    [Block.mk 1 1 BlockType.NOT_USED]

/-- C1: the claim says the reported overlap lists are computed over each
file's used blocks, and that a file whose used blocks include `[0,10)`
and `[5,15)` has that pair surfaced in its reported overlap list.  The
code violates this: `_compare_blocks` passes `self.not_used_blocks`
(the gap blocks, which are disjoint by construction) to
`_check_overlapped_blocks`, so for a file whose used blocks are exactly
the overlapping `[0,10)` and `[5,15)` (plus an empty table block) both
reported overlap lists are empty even though the overlap is present in
the used blocks. -/
theorem compare_blocks_overlap_report_misses_used_overlap :
  get_used_blocks overlapping_meta [] =
    [Block.mk 0 10 BlockType.ELF_HEADER,
     Block.mk 5 10 BlockType.PROGRAM_HEADER_TABLE,
     Block.mk 15 0 BlockType.SECTION_HEADER_TABLE]
  ∧ check_overlapped_blocks (get_used_blocks overlapping_meta []) =
      [(Block.mk 0 10 BlockType.ELF_HEADER,
        Block.mk 5 10 BlockType.PROGRAM_HEADER_TABLE)]
  ∧ get_not_used_blocks (get_used_blocks overlapping_meta []) 20 =
      Except.ok overlapping_file.not_used_blocks
  ∧ (compare_blocks [] overlapping_file overlapping_file).1.left_overlaps_in_used
      = []
  ∧ (compare_blocks [] overlapping_file overlapping_file).1.right_overlaps_in_used
      = [] := by
  decide

/-- C2: the claim says a consecutive pair is flagged iff
`cur.start_offset + cur.size > next.start_offset`.  The code tests
`cur.last_offset() > next.start_offset`, i.e.
`start + size - 1 > next.start`, which misses exactly the one-byte
overlaps: `[0,10)` and `[9,15)` satisfy the claimed condition
(`10 > 9`) but are not flagged.  The claim's positive and negative
examples (`[0,10)`/`[5,15)` flagged, touching `[0,10)`/`[10,20)` not
flagged) do hold in the code. -/
theorem check_overlapped_blocks_misses_one_byte_overlap :
  check_overlapped_blocks
    [Block.mk 0 10 BlockType.SECTION, Block.mk 9 6 BlockType.SECTION] = []
  ∧ (Block.mk 0 10 BlockType.SECTION).start_offset
      + (Block.mk 0 10 BlockType.SECTION).size
      > (Block.mk 9 6 BlockType.SECTION).start_offset
  ∧ check_overlapped_blocks
      [Block.mk 0 10 BlockType.SECTION, Block.mk 5 10 BlockType.SECTION]
      = [(Block.mk 0 10 BlockType.SECTION, Block.mk 5 10 BlockType.SECTION)]
  ∧ check_overlapped_blocks
      [Block.mk 0 10 BlockType.SECTION, Block.mk 10 10 BlockType.SECTION]
      = [] := by
  decide

/-- C6: the claim says no mutable state is shared across comparisons,
so a later compare cannot report an earlier comparison's accumulated
not-used-block diffs.  The code violates this: the default value `[]`
of `AllBlocksDiff.__init__`'s `diffs_in_not_used` parameter is one
shared list object mutated by `append`, so after a first comparison
that finds a not-used-block diff, a second comparison of two identical
files reports the first comparison's diff list instead of the empty
list a fresh comparison produces. -/
theorem compare_blocks_shared_default_leaks :
  (compare_blocks [] leak_left leak_right).1.diffs_in_not_used ≠ []
  ∧ (compare_blocks (compare_blocks [] leak_left leak_right).2
       leak_left leak_left).1.diffs_in_not_used
      = (compare_blocks [] leak_left leak_right).1.diffs_in_not_used
  ∧ (compare_blocks [] leak_left leak_left).1.diffs_in_not_used = [] := by
  decide

/-- C7 counterexample: the claim says reading a block's data returns
exactly `size` bytes and fails with an I/O/bounds error when
`offset + size` exceeds the file length.  The code's `Block.data` is
`seek` plus a plain `read(size)`, which silently returns the short
result: for a 4-byte file and a declared block `[0,10)` it returns 4
bytes, not 10, and raises nothing. -/
theorem block_data_short_read_silent :
  ¬ ((block_data (List.replicate 4 0) (Block.mk 0 10 BlockType.SECTION)).length
      = (Block.mk 0 10 BlockType.SECTION).size) := by
  decide

/-- C8: the claim says the no-used-blocks case of gap computation is
guarded explicitly and fails with a clear InternalError, treating the
whole file as one gap.  The code has no such guard: with an empty
used-block list it evaluates `used_blocks[-1]`, which raises the
unrelated out-of-range `IndexError` (and produces no whole-file gap),
for every file size. -/
theorem get_not_used_blocks_empty_index_error (file_size : Nat) :
  get_not_used_blocks [] file_size = Except.error PyError.indexError := rfl

/-- Unfolding equation for `locate_array_diff` on two non-empty lists. -/
theorem locate_array_diff_cons_cons (x y : Nat) (xs ys : List Nat) :
    locate_array_diff (x :: xs) (y :: ys) =
      if x ≠ y then 0
      else if locate_array_diff xs ys = -1 then -1
      else locate_array_diff xs ys + 1 := rfl

/-- `locate_array_diff` never returns anything below `-1`. -/
theorem locate_array_diff_cases (a b : List Nat) :
    locate_array_diff a b = -1 ∨ ∃ n : Nat, locate_array_diff a b = n := by
  induction a generalizing b with
  | nil =>
      cases b with
      | nil => left; rfl
      | cons y ys => right; exact ⟨0, by simp [locate_array_diff]⟩
  | cons x xs ih =>
      cases b with
      | nil => right; exact ⟨0, by simp [locate_array_diff]⟩
      | cons y ys =>
          rw [locate_array_diff_cons_cons]
          by_cases hxy : x = y
          · rw [if_neg (by simp [hxy])]
            rcases ih ys with h1 | ⟨n, hn⟩
            · left; rw [if_pos h1]
            · right
              refine ⟨n + 1, ?_⟩
              rw [if_neg (by omega), hn]
              omega
          · right; exact ⟨0, by rw [if_pos hxy]; simp⟩

/-- When every byte of the common prefix agrees, `locate_array_diff`
returns `-1` for equal lengths and the common length otherwise. -/
theorem locate_array_diff_of_agree (a b : List Nat)
    (h : ∀ i, i < min a.length b.length → a.getD i 0 = b.getD i 0) :
    locate_array_diff a b =
      if a.length = b.length then -1 else (min a.length b.length : Int) := by
  induction a generalizing b with
  | nil =>
      cases b with
      | nil => simp [locate_array_diff]
      | cons y ys => simp [locate_array_diff]; omega
  | cons x xs ih =>
      cases b with
      | nil => simp [locate_array_diff]; omega
      | cons y ys =>
          have hxy : x = y := by
            have := h 0 (by simp [Nat.lt_min])
            simpa using this
          have h' : ∀ i, i < min xs.length ys.length →
              xs.getD i 0 = ys.getD i 0 := by
            intro i hi
            have := h (i + 1) (by simp [Nat.lt_min] at hi ⊢; omega)
            simpa using this
          have hrec := ih ys h'
          rw [locate_array_diff_cons_cons, if_neg (by simp [hxy]), hrec]
          by_cases hlen : xs.length = ys.length
          · rw [if_pos hlen]
            simp [hlen]
          · rw [if_neg hlen, if_neg (by omega),
              if_neg (show ¬ (x :: xs).length = (y :: ys).length by
                simp [hlen])]
            simp only [List.length_cons]
            omega

/-- When index `i` is the first disagreement inside the common prefix,
`locate_array_diff` returns `i`. -/
theorem locate_array_diff_of_first_diff (a b : List Nat) (i : Nat)
    (hi : i < min a.length b.length) (hne : a.getD i 0 ≠ b.getD i 0)
    (hpre : ∀ j, j < i → a.getD j 0 = b.getD j 0) :
    locate_array_diff a b = i := by
  induction a generalizing b i with
  | nil => simp [Nat.lt_min] at hi
  | cons x xs ih =>
      cases b with
      | nil => simp [Nat.lt_min] at hi
      | cons y ys =>
          rw [locate_array_diff_cons_cons]
          cases i with
          | zero =>
              have hxy : x ≠ y := by simpa using hne
              rw [if_pos hxy]
              rfl
          | succ j =>
              have hxy : x = y := by
                have := hpre 0 (Nat.succ_pos j)
                simpa using this
              have hj : j < min xs.length ys.length := by
                simp [Nat.lt_min] at hi ⊢
                omega
              have hnej : xs.getD j 0 ≠ ys.getD j 0 := by
                simpa using hne
              have hprej : ∀ k, k < j → xs.getD k 0 = ys.getD k 0 := by
                intro k hk
                have := hpre (k + 1) (by omega)
                simpa using this
              have hrec := ih ys j hj hnej hprej
              rw [if_neg (by simp [hxy]), hrec, if_neg (by omega)]
              omega

/-- C4: for all byte sequences `a` and `b`, `locate_array_diff` returns
the first index below `min (len a) (len b)` where the bytes differ when
one exists (`Nat.find` of the bounded difference predicate), otherwise
the common length when the lengths differ and `-1` when they agree;
in particular it returns `-1` when both inputs are empty and `0` when
exactly one input is empty. -/
theorem locate_array_diff_spec (a b : List Nat) :
    (locate_array_diff a b =
      if h : ∃ i, i < min a.length b.length ∧ a.getD i 0 ≠ b.getD i 0
      then ((Nat.find h : Nat) : Int)
      else if a.length = b.length then -1 else (min a.length b.length : Int))
    ∧ locate_array_diff a [] = (if a = [] then -1 else 0)
    ∧ locate_array_diff [] b = (if b = [] then -1 else 0) := by
  refine ⟨?_, ?_, ?_⟩
  · by_cases h : ∃ i, i < min a.length b.length ∧ a.getD i 0 ≠ b.getD i 0
    · rw [dif_pos h]
      obtain ⟨hlt, hne⟩ := Nat.find_spec h
      refine locate_array_diff_of_first_diff a b (Nat.find h) hlt hne ?_
      intro j hj
      by_contra hne'
      exact Nat.find_min h hj ⟨by omega, hne'⟩
    · rw [dif_neg h]
      push_neg at h
      exact locate_array_diff_of_agree a b (fun i hi => h i hi)
  · cases a with
    | nil => simp [locate_array_diff]
    | cons x xs => simp [locate_array_diff]
  · cases b with
    | nil => simp [locate_array_diff]
    | cons y ys => simp [locate_array_diff]

/-- C7 amended: reading a block's data seeks to `start_offset` and
returns the file's bytes from there, truncated at end of file: the
result has length `min size (file_length - start_offset)` (so exactly
`size` bytes whenever `start_offset + size` is within the file), and
byte `i` of the result is byte `start_offset + i` of the file; no
error is raised on a short read. -/
theorem block_data_spec (file_bytes : List Nat) (b : Block) :
    (block_data file_bytes b).length
      = min b.size (file_bytes.length - b.start_offset)
    ∧ (b.start_offset + b.size ≤ file_bytes.length →
        (block_data file_bytes b).length = b.size)
    ∧ (∀ i, i < (block_data file_bytes b).length →
        (block_data file_bytes b).getD i 0
          = file_bytes.getD (b.start_offset + i) 0) := by
  have hlen : (block_data file_bytes b).length
      = min b.size (file_bytes.length - b.start_offset) := by
    simp [block_data]
  refine ⟨hlen, ?_, ?_⟩
  · intro hle
    rw [hlen]
    omega
  · intro i hi
    rw [hlen] at hi
    have hdrop : i < (file_bytes.drop b.start_offset).length := by
      simp
      omega
    have hfile : b.start_offset + i < file_bytes.length := by omega
    rw [List.getD_eq_getElem _ _ (by simp [block_data]; omega),
      List.getD_eq_getElem _ _ hfile]
    simp [block_data, List.getElem_take, List.getElem_drop]

/-- C7 amended, instantiated: a block `[1,3)` of a 3-byte file reads
exactly its 2 declared bytes. -/
theorem block_data_spec_witness :
    (block_data [5, 6, 7] (Block.mk 1 2 BlockType.SECTION)).length
      = (Block.mk 1 2 BlockType.SECTION).size :=
  (block_data_spec [5, 6, 7] (Block.mk 1 2 BlockType.SECTION)).2.1 (by decide)

/-- An example pair of single-key dictionaries with equal values. -/
def sample_dict : Dict Nat Nat := Dict.mk {0} (fun _ => 0)

/-- C9 counterexample: with `include_same = false` (the setting the
section/header comparisons actually use) a common key with equal
values is recorded neither in `same` nor in `modified`, so
`common_keys = same ∪ modified.keys()` fails. -/
theorem compare_dict_common_ne_same_union_modified :
    ¬ ((compare_dict sample_dict sample_dict true false
          (fun a b => decide (a = b))).common_keys
        = (compare_dict sample_dict sample_dict true false
            (fun a b => decide (a = b))).same
          ∪ (compare_dict sample_dict sample_dict true false
              (fun a b => decide (a = b))).modified_keys) := by
  decide

/-- C9 amended: for every pair of input dictionaries and every setting
of the flags, `left_new ∪ common_keys` is the left key set,
`right_new ∪ common_keys` is the right key set and
`left_new ∩ right_new = ∅`; the equation
`common_keys = same ∪ modified.keys()` holds whenever `include_same`
and `include_modified` are both set (in particular at the source's
default flag values), but not for every flag setting. -/
theorem compare_dict_invariants {K V : Type} [DecidableEq K]
    (d1 d2 : Dict K V) (include_modified include_same : Bool)
    (compare_function : V → V → Bool) :
    (compare_dict d1 d2 include_modified include_same
        compare_function).left_new
      ∪ (compare_dict d1 d2 include_modified include_same
          compare_function).common_keys = d1.keys
    ∧ (compare_dict d1 d2 include_modified include_same
        compare_function).right_new
      ∪ (compare_dict d1 d2 include_modified include_same
          compare_function).common_keys = d2.keys
    ∧ (compare_dict d1 d2 include_modified include_same
        compare_function).left_new
      ∩ (compare_dict d1 d2 include_modified include_same
          compare_function).right_new = ∅
    ∧ (include_modified = true → include_same = true →
        (compare_dict d1 d2 include_modified include_same
            compare_function).common_keys
          = (compare_dict d1 d2 include_modified include_same
              compare_function).same
            ∪ (compare_dict d1 d2 include_modified include_same
                compare_function).modified_keys) := by
  refine ⟨?_, ?_, ?_, ?_⟩
  · simp only [compare_dict]
    exact Finset.sdiff_union_inter d1.keys d2.keys
  · simp only [compare_dict]
    rw [Finset.inter_comm]
    exact Finset.sdiff_union_inter d2.keys d1.keys
  · simp only [compare_dict]
    ext k
    simp only [Finset.mem_inter, Finset.mem_sdiff, Finset.not_mem_empty,
      iff_false]
    tauto
  · intro hm hs
    simp only [compare_dict, hm, hs, if_pos]
    exact (Finset.filter_union_filter_neg_eq _ _).symm

/-- C9 amended, instantiated: with both include flags set, the common
keys of the sample comparison are exactly `same ∪ modified.keys()`. -/
theorem compare_dict_invariants_witness :
    (compare_dict sample_dict sample_dict true true
        (fun a b => decide (a = b))).common_keys
      = (compare_dict sample_dict sample_dict true true
          (fun a b => decide (a = b))).same
        ∪ (compare_dict sample_dict sample_dict true true
            (fun a b => decide (a = b))).modified_keys :=
  (compare_dict_invariants sample_dict sample_dict true true
    (fun a b => decide (a = b))).2.2.2 rfl rfl

/-- Default block used only as the (never relevant) `getD` fallback. -/
def dummy_block : Block := Block.mk 0 0 BlockType.NOT_USED

/-- Sorting preserves membership (`sort_blocks` permutes its input). -/
theorem mem_sort_blocks (x : Block) (l : List Block) :
    x ∈ sort_blocks l ↔ x ∈ l :=
  (List.perm_insertionSort Block.le l).mem_iff

/-- Every adjacent pair of the input list that leaves space contributes
its gap block to `gaps_between`. -/
theorem mem_gaps_between (l : List Block) (i : Nat) (h : i + 1 < l.length)
    (hlt : (l.getD i dummy_block).end_offset
      < (l.getD (i + 1) dummy_block).start_offset) :
    Block.mk (l.getD i dummy_block).end_offset
      ((l.getD (i + 1) dummy_block).start_offset
        - (l.getD i dummy_block).end_offset)
      BlockType.NOT_USED ∈ gaps_between l := by
  induction l generalizing i with
  | nil => simp at h
  | cons b1 tl ih =>
      cases tl with
      | nil => simp at h
      | cons b2 rest =>
          cases i with
          | zero =>
              simp only [List.getD_cons_zero, List.getD_cons_succ] at hlt ⊢
              simp only [gaps_between, List.mem_append]
              left
              rw [if_neg (by omega)]
              simp
          | succ j =>
              simp only [List.getD_cons_succ] at hlt ⊢
              simp only [gaps_between, List.mem_append]
              right
              exact ih j (by simp at h ⊢; omega) hlt

/-- C3: for used blocks with `get_not_used_blocks` succeeding, every
adjacent pair with `cur.end_offset < next.start_offset` contributes the
gap block `[cur.end_offset, next.start_offset)` to the result, and when
the last used block ends before the file size the trailing gap block
`[last.end_offset, file_size)` is in the result; moreover for a file
whose only used blocks are a header of size H at 0, a program header
table of size P right after it and a section header table of size S
right after that, with file size F > H+P+S, exactly the single gap
`[H+P+S, F)` is produced and no overlaps are detected. -/
theorem gap_blocks_spec :
    (∀ (used_blocks : List Block) (file_size : Nat) (gaps : List Block),
      get_not_used_blocks used_blocks file_size = Except.ok gaps →
      (∀ i : Nat, i + 1 < used_blocks.length →
        (used_blocks.getD i dummy_block).end_offset
          < (used_blocks.getD (i + 1) dummy_block).start_offset →
        Block.mk (used_blocks.getD i dummy_block).end_offset
          ((used_blocks.getD (i + 1) dummy_block).start_offset
            - (used_blocks.getD i dummy_block).end_offset)
          BlockType.NOT_USED ∈ gaps)
      ∧ (∀ last_block, used_blocks.getLast? = some last_block →
          last_block.end_offset < file_size →
          Block.mk last_block.end_offset (file_size - last_block.end_offset)
            BlockType.NOT_USED ∈ gaps))
    ∧ (∀ H P S F : Nat, H + P + S < F →
        get_not_used_blocks
          [Block.mk 0 H BlockType.ELF_HEADER,
           Block.mk H P BlockType.PROGRAM_HEADER_TABLE,
           Block.mk (H + P) S BlockType.SECTION_HEADER_TABLE] F
          = Except.ok [Block.mk (H + P + S) (F - (H + P + S))
              BlockType.NOT_USED]
        ∧ check_overlapped_blocks
            [Block.mk 0 H BlockType.ELF_HEADER,
             Block.mk H P BlockType.PROGRAM_HEADER_TABLE,
             Block.mk (H + P) S BlockType.SECTION_HEADER_TABLE] = []) := by
  constructor
  · intro used_blocks file_size gaps hok
    cases hlast : used_blocks.getLast? with
    | none => simp [get_not_used_blocks, hlast] at hok
    | some last_used_block =>
        simp only [get_not_used_blocks, hlast, Except.ok.injEq] at hok
        subst hok
        constructor
        · intro i hi hlt
          rw [mem_sort_blocks, List.mem_append]
          left
          exact mem_gaps_between used_blocks i hi hlt
        · intro last_block hlast2 hend
          have heq : last_used_block = last_block :=
            Option.some.inj hlast2
          subst heq
          rw [mem_sort_blocks, List.mem_append]
          right
          rw [if_pos hend]
          simp
  · intro H P S F hF
    constructor
    · have hlast : (([Block.mk 0 H BlockType.ELF_HEADER,
          Block.mk H P BlockType.PROGRAM_HEADER_TABLE,
          Block.mk (H + P) S BlockType.SECTION_HEADER_TABLE] :
            List Block)).getLast?
          = some (Block.mk (H + P) S BlockType.SECTION_HEADER_TABLE) := rfl
      simp only [get_not_used_blocks, hlast, Except.ok.injEq]
      have h1 : (Block.mk 0 H BlockType.ELF_HEADER).end_offset
          ≥ (Block.mk H P BlockType.PROGRAM_HEADER_TABLE).start_offset := by
        simp [Block.end_offset]
      have h2 : (Block.mk H P BlockType.PROGRAM_HEADER_TABLE).end_offset
          ≥ (Block.mk (H + P) S BlockType.SECTION_HEADER_TABLE).start_offset := by
        simp [Block.end_offset]
      have h3 : (Block.mk (H + P) S BlockType.SECTION_HEADER_TABLE).end_offset
          < F := by
        simp only [Block.end_offset]
        omega
      simp only [gaps_between, if_pos h1, if_pos h2, if_pos h3,
        List.nil_append]
      simp [sort_blocks, List.insertionSort, List.orderedInsert,
        Block.end_offset]
    · simp only [check_overlapped_blocks, Block.last_offset]
      rw [if_neg (by push_cast; omega), if_neg (by push_cast; omega)]
      simp

/-- C3 instantiated at H=3, P=4, S=5, F=20: the single gap `[12, 20)`
is produced and no overlaps are detected. -/
theorem gap_blocks_spec_witness :
    get_not_used_blocks
      [Block.mk 0 3 BlockType.ELF_HEADER,
       Block.mk 3 4 BlockType.PROGRAM_HEADER_TABLE,
       Block.mk 7 5 BlockType.SECTION_HEADER_TABLE] 20
      = Except.ok [Block.mk 12 8 BlockType.NOT_USED]
    ∧ check_overlapped_blocks
        [Block.mk 0 3 BlockType.ELF_HEADER,
         Block.mk 3 4 BlockType.PROGRAM_HEADER_TABLE,
         Block.mk 7 5 BlockType.SECTION_HEADER_TABLE] = [] :=
  gap_blocks_spec.2 3 4 5 20 (by decide)

/-- C5: a section name common to both files appears in the modified map
of the section comparison iff the header diff (computed with unchanged
excluded and with the `sh_name` key removed from the modified map
afterwards) is non-empty, or the payload lengths differ, or the payload
byte-diff index is not `-1`. -/
theorem section_modified_iff {V : Type} [DecidableEq V]
    (d1 d2 : Dict String (Sec V)) (name : String)
    (hmem : name ∈ d1.keys ∩ d2.keys) :
    name ∈ (compare_sections d1 d2).modified_keys ↔
      (DictDiff.has_changes
        { compare_dict (d1.val name).header (d2.val name).header true false
            (fun a b => decide (a = b)) with
          modified_keys :=
            (compare_dict (d1.val name).header (d2.val name).header true false
              (fun a b => decide (a = b))).modified_keys.erase "sh_name" }
        = true
      ∨ (d1.val name).data.length ≠ (d2.val name).data.length
      ∨ locate_array_diff (d1.val name).data (d2.val name).data ≠ -1) := by
  have hcommon : (compare_dict d1 d2 false true
      (fun _ _ => false)).common_keys = d1.keys ∩ d2.keys := rfl
  constructor
  · intro h
    simp only [compare_sections, Finset.mem_filter] at h
    obtain ⟨-, hch⟩ := h
    simp only [compare_one_section, SectionDiff.has_changes,
      Bool.or_eq_true, decide_eq_true_eq, apply_ite Option.isSome,
      Option.isSome_some, Option.isSome_none] at hch
    rcases hch with (hch | hch) | hch
    · left
      by_cases hb : DictDiff.has_changes
          { compare_dict (d1.val name).header (d2.val name).header true false
              (fun a b => decide (a = b)) with
            modified_keys :=
              (compare_dict (d1.val name).header (d2.val name).header true
                false (fun a b => decide (a = b))).modified_keys.erase
                "sh_name" } = true
      · exact hb
      · simp [hb] at hch
    · right; left
      by_cases hlen : (d1.val name).data.length = (d2.val name).data.length
      · simp [hlen] at hch
      · exact hlen
    · right; right; exact hch
  · intro h
    simp only [compare_sections, Finset.mem_filter, hcommon]
    refine ⟨hmem, ?_⟩
    simp only [compare_one_section, SectionDiff.has_changes,
      Bool.or_eq_true, decide_eq_true_eq, apply_ite Option.isSome,
      Option.isSome_some, Option.isSome_none]
    rcases h with hch | hlen | hdiff
    · left; left
      simp [hch]
    · left; right
      simp [hlen]
    · right; exact hdiff

/-- A single-section dictionary for the left file: `.data` holds the
bytes `[1,2,3]` under an empty header dictionary. -/
def sample_sections_left : Dict String (Sec Nat) :=
  Dict.mk {".data"} (fun _ => Sec.mk (Dict.mk ∅ (fun _ => 0)) [1, 2, 3])

/-- The right file's `.data` differs from the left's in byte 2. -/
def sample_sections_right : Dict String (Sec Nat) :=
  Dict.mk {".data"} (fun _ => Sec.mk (Dict.mk ∅ (fun _ => 0)) [1, 2, 4])

/-- C5 instantiated: `.data` is common to both sample files and its
payloads differ in byte 2, so it lands in the modified map. -/
theorem section_modified_iff_witness :
    ".data" ∈ (compare_sections sample_sections_left
      sample_sections_right).modified_keys :=
  (section_modified_iff sample_sections_left sample_sections_right ".data"
    (by decide)).mpr (by decide)

/-- C10: for every parsed file the used-block list contains the three
table blocks (ELF header, program header table, section header table),
is never empty, starts (after sorting) with a block at offset 0, and
therefore gap computation on it never fails. -/
theorem get_used_blocks_spec (m : ElfHeaderMeta)
    (sections : List SectionRec) (file_size : Nat) :
    Block.mk 0 m.e_ehsize BlockType.ELF_HEADER ∈ get_used_blocks m sections
    ∧ Block.mk m.e_phoff (m.e_phentsize * m.e_phnum)
        BlockType.PROGRAM_HEADER_TABLE ∈ get_used_blocks m sections
    ∧ Block.mk m.e_shoff (m.e_shentsize * m.e_shnum)
        BlockType.SECTION_HEADER_TABLE ∈ get_used_blocks m sections
    ∧ get_used_blocks m sections ≠ []
    ∧ (∃ hd, (get_used_blocks m sections).head? = some hd
        ∧ hd.start_offset = 0)
    ∧ (∃ gaps, get_not_used_blocks (get_used_blocks m sections) file_size
        = Except.ok gaps) := by
  have h1 : Block.mk 0 m.e_ehsize BlockType.ELF_HEADER
      ∈ get_used_blocks m sections := by
    simp only [get_used_blocks]
    rw [mem_sort_blocks]
    simp
  have h2 : Block.mk m.e_phoff (m.e_phentsize * m.e_phnum)
      BlockType.PROGRAM_HEADER_TABLE ∈ get_used_blocks m sections := by
    simp only [get_used_blocks]
    rw [mem_sort_blocks]
    simp
  have h3 : Block.mk m.e_shoff (m.e_shentsize * m.e_shnum)
      BlockType.SECTION_HEADER_TABLE ∈ get_used_blocks m sections := by
    simp only [get_used_blocks]
    rw [mem_sort_blocks]
    simp
  have hne : get_used_blocks m sections ≠ [] := by
    intro hempty
    rw [hempty] at h1
    simp at h1
  have hsorted : List.Sorted Block.le (get_used_blocks m sections) := by
    simp only [get_used_blocks]
    exact List.sorted_insertionSort Block.le _
  refine ⟨h1, h2, h3, hne, ?_, ?_⟩
  · cases hl : get_used_blocks m sections with
    | nil => exact absurd hl hne
    | cons hd tl =>
        refine ⟨hd, by simp, ?_⟩
        rw [hl] at h1 hsorted
        rcases List.mem_cons.mp h1 with heq | htl
        · rw [← heq]
        · have := (List.sorted_cons.mp hsorted).1 _ htl
          simp only [Block.le] at this
          omega
  · cases hlast : (get_used_blocks m sections).getLast? with
    | none => exact absurd (List.getLast?_eq_none_iff.mp hlast) hne
    | some last_used_block =>
        refine ⟨sort_blocks (gaps_between (get_used_blocks m sections)
          ++ (if last_used_block.end_offset < file_size
              then [Block.mk last_used_block.end_offset
                     (file_size - last_used_block.end_offset)
                     BlockType.NOT_USED]
              else [])), ?_⟩
        simp only [get_not_used_blocks, hlast]

end Elfcmp
